import Mathlib

/-!
Verification development for the VNR-activity sentence-extraction pipeline
(`src/utils/parser.py`).  Text is modelled as `List Char` (Python `str`, with
the ASCII fragment of Python's Unicode-aware character classes: the inputs
exercised by the properties below are ASCII).  Machine arithmetic does not
occur; Python float ratio comparisons (`x / y < 0.3` under guards that force
`y > 0`) are modelled exactly over the rationals by cross-multiplication of
naturals.  Each `def` mirrors one Python function or one regular-expression
substitution pass of `parser.py`, in the order the source applies them.
-/

namespace VNRActivity

/-- Python `str.strip()` / `\s` whitespace, ASCII fragment:
space, tab, newline, vertical tab, form feed, carriage return. -/
def isPySpace (c : Char) : Bool :=
  c = ' ' || c = '\t' || c = '\n' || c = '\x0b' || c = '\x0c' || c = '\r'

/-- Python regex `\w` (word character), ASCII fragment: alphanumeric or underscore. -/
def isWordChar (c : Char) : Bool :=
  c.isAlphanum || c = '_'

/-- The lowercase vowels `'aeiou'` used by both garbage detectors. -/
def isVowel (c : Char) : Bool :=
  c = 'a' || c = 'e' || c = 'i' || c = 'o' || c = 'u'

/-- The character class `[bcdfghjklmnpqrstvwxyz]` of the consonant-run regexes. -/
def isConsonant (c : Char) : Bool :=
  c = 'b' || c = 'c' || c = 'd' || c = 'f' || c = 'g' || c = 'h' || c = 'j' ||
  c = 'k' || c = 'l' || c = 'm' || c = 'n' || c = 'p' || c = 'q' || c = 'r' ||
  c = 's' || c = 't' || c = 'v' || c = 'w' || c = 'x' || c = 'y' || c = 'z'

/-- Case-insensitive consonant test (a consonant letter in either case), used
only to state the original wording of claim C9, which measures the raw sentence. -/
def isConsonantCI (c : Char) : Bool :=
  isConsonant c.toLower

/-- Case-insensitive vowel test, used only to state the original wording of claim C9. -/
def isVowelCI (c : Char) : Bool :=
  isVowel c.toLower

/-- Python `str.strip()`: drop leading and trailing whitespace. -/
def pyStrip (t : List Char) : List Char :=
  ((t.dropWhile isPySpace).reverse.dropWhile isPySpace).reverse

/-- Exact (case-sensitive) "the pattern is an initial segment of the text" test. -/
def startsWithList : List Char → List Char → Bool
  | [], _ => true
  | _ :: _, [] => false
  | p :: ps, t :: ts => p = t && startsWithList ps ts

/-- Case-insensitive initial-segment test (Python `re.IGNORECASE`, ASCII fragment). -/
def ciStartsWith : List Char → List Char → Bool
  | [], _ => true
  | _ :: _, [] => false
  | p :: ps, t :: ts => p.toLower = t.toLower && ciStartsWith ps ts

/-- `True` when the text contains `pat` as a contiguous substring. -/
def containsSub (pat : List Char) : List Char → Bool
  | [] => startsWithList pat []
  | c :: cs => startsWithList pat (c :: cs) || containsSub pat cs

/-- Regex word boundary `\b` placed before a word character: holds at the start
of the string or after a non-word character.  `prev` is the previous character. -/
def wordBdry : Option Char → Bool
  | none => true
  | some c => !(isWordChar c)

/-- Regex word boundary placed after the character `lastC`, looking at the rest
of the text: the two sides must differ in word-ness (end of string is non-word). -/
def bdryAfter (lastC : Char) : List Char → Bool
  | [] => isWordChar lastC
  | c :: _ => isWordChar lastC != isWordChar c

/-- Holds when the rest of the text starts with a non-word character or is empty
(the trailing `\b` after a word character, e.g. after a digit run). -/
def nextNonWord : List Char → Bool
  | [] => true
  | c :: _ => !(isWordChar c)

/-!  ### Text Normalizer (`extract_sentences_from_text`, lines 310-319)  -/

/-- `unicodedata.normalize('NFC', text)` (failures swallowed).  Modelled as the
identity: NFC canonical composition is the identity on ASCII text, and every
concrete input examined below is ASCII. -/
def nfcNormalize (t : List Char) : List Char := t

/-- `re.sub(r'[ \t]+', ' ', text)`: collapse every run of spaces/tabs to one space. -/
def squeezeSpaceTab : List Char → List Char
  | [] => []
  | [c] => if c = ' ' || c = '\t' then [' '] else [c]
  | a :: b :: rest =>
    if (a = ' ' || a = '\t') && (b = ' ' || b = '\t') then
      squeezeSpaceTab (b :: rest)
    else
      (if a = ' ' || a = '\t' then ' ' else a) :: squeezeSpaceTab (b :: rest)

/-- `re.sub(r'\r\n|\r', '\n', text)`: normalize line endings (alternation tries
`\r\n` first, exactly as Python's leftmost-first alternation does). -/
def normalizeCR : List Char → List Char
  | [] => []
  | '\r' :: '\n' :: cs => '\n' :: normalizeCR cs
  | '\r' :: cs => '\n' :: normalizeCR cs
  | c :: cs => c :: normalizeCR cs

/-- `re.sub(r'\n{4,}', '\n\n\n', text)`: a greedy maximal run of four or more
newlines becomes exactly three; shorter runs are untouched.  The counter `k`
is the number of newlines already emitted in the current run. -/
def limitNewlinesGo : Nat → List Char → List Char
  | _, [] => []
  | k, c :: cs =>
    if c = '\n' then
      if k < 3 then '\n' :: limitNewlinesGo (k + 1) cs else limitNewlinesGo k cs
    else
      c :: limitNewlinesGo 0 cs

def limitNewlines (t : List Char) : List Char := limitNewlinesGo 0 t

/-!  ### Generic left-to-right, non-overlapping substitution scanner

`re.sub` (with a pattern anchored by the data below) scans left to right; on a
match it emits the replacement, resumes after the matched span (the replacement
is not rescanned), and remembers the last consumed original character for the
next word-boundary test.  A matcher receives the previous original character
and the current suffix and returns `(replacement, matchedLength)`, with
`matchedLength ≥ 1`.  `skip` counts original characters of the current match
still to be consumed. -/

def scanSub (m : Option Char → List Char → Option (List Char × Nat)) :
    Nat → Option Char → List Char → List Char
  | _, _, [] => []
  | Nat.succ k, _, c :: cs => scanSub m k (some c) cs
  | 0, prev, c :: cs =>
    match m prev (c :: cs) with
    | some (rep, len) => rep ++ scanSub m (len - 1) (some c) cs
    | none => c :: scanSub m 0 (some c) cs

/-- Placeholder token for protected abbreviation periods. -/
def dotPH : List Char := "DOTPLACEHOLDER".toList

/-- Placeholder token for protected numeric decimal periods. -/
def decDot : List Char := "DECIMALDOT".toList

/-!  ### Period-Protector (`extract_sentences_from_text`, lines 321-358)  -/

/-- The abbreviation list of `parser.py` (source order), as (match, replacement)
pairs.  In the match pattern the regex escape `\.` is a literal period, so
`'e\.g'` matches the three characters `e.g`; in the fixed replacement string
Python's template parser keeps the unknown non-letter escape `\.` verbatim, so
the replacement really inserts the two characters backslash-period. -/
def abbreviations : List (List Char × List Char) :=
  [(("Dr".toList), ("Dr".toList)), (("Mr".toList), ("Mr".toList)),
   (("Mrs".toList), ("Mrs".toList)), (("Ms".toList), ("Ms".toList)),
   (("Prof".toList), ("Prof".toList)), (("Inc".toList), ("Inc".toList)),
   (("Ltd".toList), ("Ltd".toList)), (("Corp".toList), ("Corp".toList)),
   (("Co".toList), ("Co".toList)), (("LLC".toList), ("LLC".toList)),
   (("etc".toList), ("etc".toList)), (("vs".toList), ("vs".toList)),
   (("e.g".toList), (['e', '\\', '.', 'g'])), (("i.e".toList), (['i', '\\', '.', 'e'])),
   (("cf".toList), ("cf".toList)), (("viz".toList), ("viz".toList)),
   (("al".toList), ("al".toList)), (("Jr".toList), ("Jr".toList)),
   (("Sr".toList), ("Sr".toList)), (("Ph.D".toList), (['P', 'h', '\\', '.', 'D'])),
   (("M.D".toList), (['M', '\\', '.', 'D'])), (("B.A".toList), (['B', '\\', '.', 'A'])),
   (("M.A".toList), (['M', '\\', '.', 'A'])), (("M.S".toList), (['M', '\\', '.', 'S'])),
   (("B.S".toList), (['B', '\\', '.', 'S'])), (("U.S".toList), (['U', '\\', '.', 'S'])),
   (("U.K".toList), (['U', '\\', '.', 'K'])), (("U.N".toList), (['U', '\\', '.', 'N']))]

/-- One abbreviation pass: `re.sub(rf'\b{abbr}\. ', f'{abbr}DOTPLACEHOLDER ', text,
flags=re.IGNORECASE)`.  The match is the abbreviation (case-insensitively),
a period and a space, at a word boundary; the fixed replacement restores the
list's spelling (backslashes included, see `abbreviations`). -/
def matchAbbr (abbr : List Char × List Char) (prev : Option Char) (t : List Char) :
    Option (List Char × Nat) :=
  if wordBdry prev && ciStartsWith (abbr.1 ++ ['.', ' ']) t then
    some (abbr.2 ++ dotPH ++ [' '], abbr.1.length + 2)
  else
    none

def protectAbbreviations (t : List Char) : List Char :=
  abbreviations.foldl (fun acc a => scanSub (matchAbbr a) 0 none acc) t

/-- `re.sub(r'\b(\d+)\.(\d+)\b', r'\1DECIMALDOT\2', text)`: a word-bounded
`digits.digits` token has its period replaced by the decimal placeholder. -/
def matchDecimal (prev : Option Char) (t : List Char) : Option (List Char × Nat) :=
  let d1 := t.takeWhile Char.isDigit
  let r1 := t.dropWhile Char.isDigit
  if wordBdry prev && !d1.isEmpty then
    match r1 with
    | '.' :: r2 =>
      let d2 := r2.takeWhile Char.isDigit
      let r3 := r2.dropWhile Char.isDigit
      if !d2.isEmpty && nextNonWord r3 then
        some (d1 ++ decDot ++ d2, d1.length + 1 + d2.length)
      else
        none
    | _ => none
  else
    none

def protectDecimals (t : List Char) : List Char :=
  scanSub matchDecimal 0 none t

/-- The unit-word list of `parser.py` (source order; `pounds` really appears twice). -/
def decimalUnits : List (List Char) :=
  [("million".toList), ("billion".toList), ("trillion".toList), ("thousand".toList),
   ("hundred".toList), ("percent".toList), ("%".toList), ("degrees".toList),
   ("inches".toList), ("feet".toList), ("yards".toList), ("miles".toList),
   ("km".toList), ("meters".toList), ("kg".toList), ("lbs".toList),
   ("pounds".toList), ("tons".toList), ("ounces".toList), ("grams".toList),
   ("seconds".toList), ("minutes".toList), ("hours".toList), ("days".toList),
   ("weeks".toList), ("months".toList), ("years".toList), ("dollars".toList),
   ("cents".toList), ("euros".toList), ("pounds".toList)]

/-- One unit pass: `re.sub(rf'\b(\d+)DECIMALDOT(\d+)\s+{unit}\b',
rf'\1DECIMALDOT\2 {unit}', text, flags=re.IGNORECASE)`: whitespace between a
protected decimal and a unit word collapses to one space (canonical unit
spelling in the replacement).  The trailing `\b` compares the word-ness of the
unit's last character with the next character. -/
def matchDecUnit (unit : List Char) (prev : Option Char) (t : List Char) :
    Option (List Char × Nat) :=
  let d1 := t.takeWhile Char.isDigit
  let r1 := t.dropWhile Char.isDigit
  if wordBdry prev && !d1.isEmpty && ciStartsWith decDot r1 then
    let r2 := r1.drop decDot.length
    let d2 := r2.takeWhile Char.isDigit
    let r3 := r2.dropWhile Char.isDigit
    let ws := r3.takeWhile isPySpace
    let r4 := r3.dropWhile isPySpace
    if !d2.isEmpty && !ws.isEmpty && ciStartsWith unit r4 then
      let matchedUnit := r4.take unit.length
      let r5 := r4.drop unit.length
      if bdryAfter (matchedUnit.getLastD ' ') r5 then
        some (d1 ++ decDot ++ d2 ++ [' '] ++ unit,
              d1.length + decDot.length + d2.length + ws.length + unit.length)
      else
        none
    else
      none
  else
    none

def confirmDecimalUnits (t : List Char) : List Char :=
  decimalUnits.foldl (fun acc u => scanSub (matchDecUnit u) 0 none acc) t

/-- `re.sub(r'\b(\d+)(st|nd|rd|th)\.', r'\1\2DOTPLACEHOLDER', text)`:
ordinal numbers followed by a period (case-sensitive suffixes). -/
def matchOrdinal (prev : Option Char) (t : List Char) : Option (List Char × Nat) :=
  let d1 := t.takeWhile Char.isDigit
  let r1 := t.dropWhile Char.isDigit
  if wordBdry prev && !d1.isEmpty then
    (([("st".toList), ("nd".toList), ("rd".toList), ("th".toList)]).findSome?
      fun sfx =>
        if startsWithList (sfx ++ ['.']) r1 then
          some (d1 ++ sfx ++ dotPH, d1.length + sfx.length + 1)
        else
          none)
  else
    none

def protectOrdinals (t : List Char) : List Char :=
  scanSub matchOrdinal 0 none t

/-- `re.sub(r'\b(\d{1,2})\.(\d{2})\s*(AM|PM|am|pm)\b', r'\1DECIMALDOT\2 \3', text)`:
time-of-day (case-sensitive meridiem alternatives; greedy `\d{1,2}` tries two
digits first, then backtracks to one). -/
def matchTimeAt (k : Nat) (t : List Char) : Option (List Char × Nat) :=
  let ds := t.take k
  if ds.length = k && ds.all Char.isDigit && startsWithList ['.'] (t.drop k) then
    let m2 := (t.drop (k + 1)).take 2
    if m2.length = 2 && m2.all Char.isDigit then
      let rest := t.drop (k + 3)
      let ws := rest.takeWhile isPySpace
      let r4 := rest.dropWhile isPySpace
      (([("AM".toList), ("PM".toList), ("am".toList), ("pm".toList)]).findSome?
        fun mer =>
          if startsWithList mer r4 && bdryAfter (mer.getLastD ' ') (r4.drop 2) then
            some (ds ++ decDot ++ m2 ++ [' '] ++ mer, k + 3 + ws.length + 2)
          else
            none)
    else
      none
  else
    none

def matchTime (prev : Option Char) (t : List Char) : Option (List Char × Nat) :=
  if wordBdry prev then
    match matchTimeAt 2 t with
    | some r => some r
    | none => matchTimeAt 1 t
  else
    none

def protectTimes (t : List Char) : List Char :=
  scanSub matchTime 0 none t

/-- `re.sub(r'\b(v|version)\s*(\d+)\.(\d+)', r'\1 \2DECIMALDOT\3', text,
flags=re.IGNORECASE)`: version numbers.  The alternation tries `v` first and
falls back to `version`; group 1 keeps the matched spelling, and the
replacement inserts a single space after it. -/
def matchVersionAt (p : List Char) (t : List Char) : Option (List Char × Nat) :=
  if ciStartsWith p t then
    let g1 := t.take p.length
    let r1 := t.drop p.length
    let ws := r1.takeWhile isPySpace
    let r2 := r1.dropWhile isPySpace
    let d1 := r2.takeWhile Char.isDigit
    let r3 := r2.dropWhile Char.isDigit
    if !d1.isEmpty && startsWithList ['.'] r3 then
      let d2 := (r3.drop 1).takeWhile Char.isDigit
      if !d2.isEmpty then
        some (g1 ++ [' '] ++ d1 ++ decDot ++ d2,
              p.length + ws.length + d1.length + 1 + d2.length)
      else
        none
    else
      none
  else
    none

def matchVersion (prev : Option Char) (t : List Char) : Option (List Char × Nat) :=
  if wordBdry prev then
    match matchVersionAt ("v".toList) t with
    | some r => some r
    | none => matchVersionAt ("version".toList) t
  else
    none

def protectVersions (t : List Char) : List Char :=
  scanSub matchVersion 0 none t

/-- `re.sub(r'\b(\d{1,2})\.(\d{1,2})\.(\d{4})\b', r'\1DECIMALDOT\2DECIMALDOT\3', text)`:
dates.  Both bounded digit groups are greedy with backtracking, so the (2,2),
(2,1), (1,2), (1,1) width combinations are tried in that order. -/
def matchDateAt (a b : Nat) (t : List Char) : Option (List Char × Nat) :=
  let ds1 := t.take a
  if ds1.length = a && ds1.all Char.isDigit && startsWithList ['.'] (t.drop a) then
    let ds2 := (t.drop (a + 1)).take b
    if ds2.length = b && ds2.all Char.isDigit &&
        startsWithList ['.'] (t.drop (a + 1 + b)) then
      let ds3 := (t.drop (a + b + 2)).take 4
      if ds3.length = 4 && ds3.all Char.isDigit && nextNonWord (t.drop (a + b + 6)) then
        some (ds1 ++ decDot ++ ds2 ++ decDot ++ ds3, a + b + 6)
      else
        none
    else
      none
  else
    none

def matchDate (prev : Option Char) (t : List Char) : Option (List Char × Nat) :=
  if wordBdry prev then
    match matchDateAt 2 2 t with
    | some r => some r
    | none =>
      match matchDateAt 2 1 t with
      | some r => some r
      | none =>
        match matchDateAt 1 2 t with
        | some r => some r
        | none => matchDateAt 1 1 t
  else
    none

def protectDates (t : List Char) : List Char :=
  scanSub matchDate 0 none t

/-!  ### Sentence Splitter (`extract_sentences_from_text`, lines 360-394)  -/

/-- A sentence-ending punctuation character, the class `[.!?]`. -/
def isSentEnd (c : Char) : Bool :=
  c = '.' || c = '!' || c = '?'

/-- `re.split(r'[.!?]+(?=\s|\n|$)', text)`: split at every greedy maximal run
of `[.!?]` whose lookahead (the character after the whole run) is whitespace or
the end of the string; any shorter prefix of a run is followed by another
`[.!?]` character, which is not whitespace, so only maximal runs can match.
`acc` is the current piece (reversed), `run` the pending punctuation run
(reversed); the lookahead character is not consumed. -/
def splitSentGo : List Char → List Char → List Char → List (List Char)
  | acc, run, [] =>
    if run.isEmpty then [acc.reverse] else [acc.reverse, []]
  | acc, run, c :: cs =>
    if isSentEnd c then
      splitSentGo acc (c :: run) cs
    else if run.isEmpty then
      splitSentGo (c :: acc) run cs
    else if isPySpace c then
      acc.reverse :: splitSentGo [c] [] cs
    else
      splitSentGo (c :: (run ++ acc)) [] cs

def splitSentences (t : List Char) : List (List Char) :=
  splitSentGo [] [] t

/-- Python `str.replace(pat, rep)` for a non-empty `pat`: left-to-right,
non-overlapping, replacement not rescanned (`skip` as in `scanSub`). -/
def replaceSub (pat rep : List Char) : Nat → List Char → List Char
  | _, [] => []
  | Nat.succ k, _ :: cs => replaceSub pat rep k cs
  | 0, c :: cs =>
    if !pat.isEmpty && startsWithList pat (c :: cs) then
      rep ++ replaceSub pat rep (pat.length - 1) cs
    else
      c :: replaceSub pat rep 0 cs

/-- Python `str.split(sep)` for a non-empty separator: splits at every
non-overlapping occurrence, keeping empty pieces. -/
def splitSubGo (pat : List Char) : Nat → List Char → List Char → List (List Char)
  | Nat.succ _, acc, [] => [acc.reverse]
  | Nat.succ k, acc, _ :: cs => splitSubGo pat k acc cs
  | 0, acc, [] => [acc.reverse]
  | 0, acc, c :: cs =>
    if !pat.isEmpty && startsWithList pat (c :: cs) then
      acc.reverse :: splitSubGo pat (pat.length - 1) [] cs
    else
      splitSubGo pat 0 (c :: acc) cs

def splitOnSub (pat t : List Char) : List (List Char) :=
  splitSubGo pat 0 [] t

/-- `if sentence and sentence[-1] not in '.!?': sentence += '.'` — guarantee a
terminal punctuation mark on a non-empty fragment (shared by both splitter
loops, lines 377-378 and 390-391). -/
def fixTerminal (p : List Char) : List Char :=
  match p.getLast? with
  | none => p
  | some c => if isSentEnd c then p else p ++ ['.']

/-- First splitter loop (lines 363-380): skip blank pieces, restore both
placeholders, strip, drop fragments shorter than 5, enforce terminal punctuation. -/
def firstPass : List (List Char) → List (List Char)
  | [] => []
  | p :: ps =>
    if (pyStrip p).isEmpty then
      firstPass ps
    else
      let s := pyStrip (replaceSub decDot ['.'] 0 (replaceSub dotPH ['.'] 0 p))
      if s.length < 5 then
        firstPass ps
      else
        fixTerminal s :: firstPass ps

/-- Body of the second splitter loop (lines 384-392): split a surviving
sentence on double newlines, join remaining line breaks with spaces, strip,
keep parts of length at least 5 with enforced terminal punctuation. -/
def processParts : List (List Char) → List (List Char)
  | [] => []
  | p :: ps =>
    let q := pyStrip (replaceSub ['\n'] [' '] 0 p)
    if 5 ≤ q.length then
      fixTerminal q :: processParts ps
    else
      processParts ps

/-- Second splitter loop (lines 382-394). -/
def secondPass : List (List Char) → List (List Char)
  | [] => []
  | s :: ss => processParts (splitOnSub ['\n', '\n'] s) ++ secondPass ss

/-- `extract_sentences_from_text` (lines 295-394): normalization, period
protection, splitting, and the two cleanup loops, in source order. -/
def extract_sentences_from_text (text : List Char) : List (List Char) :=
  if text.isEmpty || (pyStrip text).isEmpty then
    []
  else
    let t0 := nfcNormalize text
    let t1 := squeezeSpaceTab t0
    let t2 := normalizeCR t1
    let t3 := limitNewlines t2
    let t4 := protectAbbreviations t3
    let t5 := protectDecimals t4
    let t6 := confirmDecimalUnits t5
    let t7 := protectOrdinals t6
    let t8 := protectTimes t7
    let t9 := protectVersions t8
    let t10 := protectDates t9
    secondPass (firstPass (splitSentences t10))

/-!  ### Garbage Detector (`is_sentence_garbage`, `is_ocr_garbage`)

Both detectors measure the lowercased (`str.lower()`), stripped (`str.strip()`)
text; ratio comparisons against the float literals 0.3, 0.4, 0.7, 0.08 are
modelled exactly over the rationals by natural cross-multiplication (the
guards force the denominators positive). -/

/-- `sentence.lower().strip()` / `text.lower().strip()`. -/
def lowerStrip (s : List Char) : List Char :=
  pyStrip (s.map Char.toLower)

/-- `sum(1 for c in l if c.isalpha())` (ASCII fragment). -/
def alphaCount (l : List Char) : Nat :=
  l.countP Char.isAlpha

/-- `len(l.replace(' ', ''))`: length after removing space characters only. -/
def nonSpaceLen (l : List Char) : Nat :=
  (l.filter (fun c => c != ' ')).length

/-- `len(set(l.replace(' ', '')))`: number of distinct non-space characters. -/
def distinctNonSpace (l : List Char) : Nat :=
  ((l.filter (fun c => c != ' ')).dedup).length

/-- `sum(1 for c in l if c in 'aeiou')`. -/
def vowelCount (l : List Char) : Nat :=
  l.countP isVowel

/-- `sum(1 for c in l if not c.isalpha() and not c.isspace())`. -/
def nonAlphaNonSpaceCount (l : List Char) : Nat :=
  l.countP (fun c => !c.isAlpha && !(isPySpace c))

/-- Lengths of the maximal runs of characters satisfying `p`, in order.
`re.findall(r'[class]{k,}', text)` produces exactly one match per maximal run
of length at least `k` (the quantifier is greedy), so the number of findall
matches is the count of entries `≥ k` in this list.  `n` is the length of the
run currently open. -/
def runLengthsGo (p : Char → Bool) : List Char → Nat → List Nat
  | [], 0 => []
  | [], Nat.succ n => [Nat.succ n]
  | c :: cs, n =>
    if p c then
      runLengthsGo p cs (n + 1)
    else
      match n with
      | 0 => runLengthsGo p cs 0
      | Nat.succ m => (Nat.succ m) :: runLengthsGo p cs 0

def runLengths (p : Char → Bool) (l : List Char) : List Nat :=
  runLengthsGo p l 0

/-- Check 1 of `is_sentence_garbage`: `total_chars > 10 and alpha_chars / total_chars < 0.3`. -/
def sgLowAlphaRatio (clean : List Char) : Bool :=
  decide (10 < nonSpaceLen clean) && decide (alphaCount clean * 10 < nonSpaceLen clean * 3)

/-- Check 2: `re.findall(r'[bcdfghjklmnpqrstvwxyz]{8,}', clean)` is non-empty. -/
def sgConsonantRun (clean : List Char) : Bool :=
  (runLengths isConsonant clean).any (fun n => decide (8 ≤ n))

/-- Check 3: fewer than 3 distinct non-space characters while longer than 10. -/
def sgFewDistinct (clean : List Char) : Bool :=
  decide (distinctNonSpace clean < 3) && decide (10 < clean.length)

/-- Check 4: more than 5 alphabetic characters but no vowel at all. -/
def sgNoVowels (clean : List Char) : Bool :=
  decide (5 < alphaCount clean) && !(clean.any isVowel)

/-- `is_sentence_garbage` (lines 210-249): sentence-level garbage detection. -/
def is_sentence_garbage (s : List Char) : Bool :=
  if s.isEmpty || decide ((pyStrip s).length < 5) then true
  else if sgLowAlphaRatio (lowerStrip s) then true
  else if sgConsonantRun (lowerStrip s) then true
  else if sgFewDistinct (lowerStrip s) then true
  else if sgNoVowels (lowerStrip s) then true
  else false

/-- Heuristic 1 of `is_ocr_garbage`: more than one maximal run of 10+ consonants. -/
def ogManyConsRuns (clean : List Char) : Bool :=
  decide (1 < (runLengths isConsonant clean).countP (fun n => decide (10 ≤ n)))

/-- Heuristic 2: `total_chars > 100 and alpha_chars / total_chars < 0.4`. -/
def ogLowAlphaRatio (clean : List Char) : Bool :=
  decide (100 < nonSpaceLen clean) && decide (alphaCount clean * 10 < nonSpaceLen clean * 4)

/-- Heuristic 3: `len(clean) > 100` and non-alphabetic non-whitespace ratio above 0.7. -/
def ogHighSymbolRatio (clean : List Char) : Bool :=
  decide (100 < clean.length) && decide (clean.length * 7 < nonAlphaNonSpaceCount clean * 10)

/-- Heuristic 4: `alpha_chars > 100 and vowels / alpha_chars < 0.08`. -/
def ogFewVowels (clean : List Char) : Bool :=
  decide (100 < alphaCount clean) && decide (vowelCount clean * 100 < alphaCount clean * 8)

/-- `is_ocr_garbage` (lines 251-293): page-level garbage detection. -/
def is_ocr_garbage (t : List Char) : Bool :=
  if t.isEmpty || decide ((pyStrip t).length < 50) then false
  else if ogManyConsRuns (lowerStrip t) then true
  else if ogLowAlphaRatio (lowerStrip t) then true
  else if ogHighSymbolRatio (lowerStrip t) then true
  else if ogFewVowels (lowerStrip t) then true
  else false

/-!  ### Sentence Record Builder (`clean_sentence_text`, lines 396-420)  -/

/-- The control characters removed by `re.sub(r'[\x00-\x08\x0B\x0C\x0E-\x1F\x7F]', '', s)`.
Tab (0x09), newline (0x0A) and carriage return (0x0D) are deliberately not in
this class; they are whitespace and are collapsed instead. -/
def removedCtrl (c : Char) : Bool :=
  c.toNat ≤ 8 || c.toNat = 11 || c.toNat = 12 ||
  (14 ≤ c.toNat && c.toNat ≤ 31) || c.toNat = 127

/-- `re.sub(r'\s+', ' ', s)`: collapse every whitespace run to a single space. -/
def collapseWs : List Char → List Char
  | [] => []
  | [c] => if isPySpace c then [' '] else [c]
  | a :: b :: rest =>
    if isPySpace a && isPySpace b then
      collapseWs (b :: rest)
    else
      (if isPySpace a then ' ' else a) :: collapseWs (b :: rest)

/-- The literal truncation marker appended at 32000 characters. -/
def truncSuffix : List Char := "... [TRUNCATED]".toList

/-- `clean_sentence_text` (lines 396-420): strip the control-character class,
strip and collapse whitespace, and truncate at 32000 characters with the
marker suffix.  (The Python `isinstance` coercion is subsumed by typing.) -/
def clean_sentence_text (s : List Char) : List Char :=
  let s1 := s.filter (fun c => !(removedCtrl c))
  let s2 := collapseWs (pyStrip s1)
  if 32000 < s2.length then s2.take 32000 ++ truncSuffix else s2

/-!  ### `parse_pdf_bytes` (lines 22-155)

The PDF backend is external: its availability (`PDF_AVAILABLE` / `PDF_ERROR`
module globals) and the outcome of `extract_text_with_pdfplumber` (a list of
per-page text strings, or a raised exception's message) enter as an
environment value.  Only emptiness of `pdf_bytes` is inspected by the
function, but the bytes are carried as data. -/

structure SentenceRecord where
  file_name : List Char
  activity_index : Nat
  activity_text : List Char
  page_number : Nat
  document_name : List Char
  error : Option (List Char)
deriving DecidableEq

/-- `file_name.rsplit('.', 1)[0]`: everything before the last period, or the
whole name when there is none. -/
def docName (n : List Char) : List Char :=
  if n.contains '.' then
    ((n.reverse.dropWhile (fun c => c != '.')).drop 1).reverse
  else n

/-- The synthetic fallback record shape shared by every error branch of
`parse_pdf_bytes`: `activity_index` 0, `page_number` 1, non-null `error`. -/
def mkFallback (name txt err : List Char) : SentenceRecord :=
  ⟨name, 0, txt, 1, docName name, some err⟩

/-- The message of the `UnboundLocalError` raised by line 113,
`is_sentence_garbage = is_sentence_garbage(sentence)`: the assignment makes the
name local to `parse_pdf_bytes`, so evaluating the right-hand side reads an
unbound local (CPython 3.11+ wording; only the `'Parsing error: '` prefix that
the enclosing handler prepends is relied on below). -/
def unboundLocalErrorMsg : List Char :=
  "cannot access local variable 'is_sentence_garbage' where it is not associated with a value".toList

structure PdfEnv where
  pdfAvailable : Bool
  pdfError : List Char
  extractResult : Except (List Char) (List (List Char))

/-- The inner sentence loop (lines 108-128).  Fragments of stripped length
under 10 are skipped; the first longer candidate evaluates
`is_sentence_garbage(sentence)` under the local-shadowing assignment and
raises `UnboundLocalError`, so the garbage test, the record append and the
index increment that follow in the source are unreachable. -/
def sentenceLoop (fileName : List Char) (pageNum : Nat) (_pageGarbage : Bool) :
    List (List Char) → Nat → List SentenceRecord →
    Except (List Char) (Nat × List SentenceRecord)
  | [], idx, acc => Except.ok (idx, acc)
  | s :: ss, idx, acc =>
    if decide ((pyStrip s).length < 10) then
      sentenceLoop fileName pageNum _pageGarbage ss idx acc
    else
      Except.error unboundLocalErrorMsg

/-- The page loop (lines 91-128): pages are numbered from 1, blank pages are
skipped (but still numbered), `is_ocr_garbage` is consulted per page, and the
page's extracted sentences are fed to `sentenceLoop`. -/
def pageLoop (fileName : List Char) :
    List (List Char) → Nat → Nat → List SentenceRecord →
    Except (List Char) (Nat × List SentenceRecord)
  | [], _, idx, acc => Except.ok (idx, acc)
  | p :: ps, pageNum, idx, acc =>
    if (pyStrip p).isEmpty then
      pageLoop fileName ps (pageNum + 1) idx acc
    else
      match sentenceLoop fileName pageNum (is_ocr_garbage p)
          (extract_sentences_from_text p) idx acc with
      | Except.error e => Except.error e
      | Except.ok (idx2, acc2) => pageLoop fileName ps (pageNum + 1) idx2 acc2

/-- `parse_pdf_bytes` (lines 22-155): the guard chain, the page loop, and the
`except Exception` handler that converts any raised exception into a single
fallback record with a `'Parsing error: '` message. -/
def parse_pdf_bytes (env : PdfEnv) (pdf_bytes : List Nat) (file_name : List Char) :
    List SentenceRecord :=
  if pdf_bytes.isEmpty then
    [mkFallback file_name (("Empty file: ".toList) ++ file_name)
      ("File is empty or could not be read".toList)]
  else if !env.pdfAvailable then
    [mkFallback file_name (("PDF processing unavailable: ".toList) ++ env.pdfError)
      (("pdfplumber not available - ".toList) ++ env.pdfError)]
  else
    match env.extractResult with
    | Except.error e =>
      [mkFallback file_name (("Failed to parse: ".toList) ++ file_name)
        (("Parsing error: ".toList) ++ e)]
    | Except.ok pages =>
      if pages.isEmpty then
        [mkFallback file_name (("No text found in: ".toList) ++ file_name)
          ("No extractable text found in PDF".toList)]
      else
        match pageLoop file_name pages 1 0 [] with
        | Except.error e =>
          [mkFallback file_name (("Failed to parse: ".toList) ++ file_name)
            (("Parsing error: ".toList) ++ e)]
        | Except.ok (_, all) =>
          if all.isEmpty then
            [mkFallback file_name (("No valid sentences found in: ".toList) ++ file_name)
              ("No valid sentences could be extracted".toList)]
          else all

/-!  ### Specification-side predicates (for the refinement claims C8 and C9)  -/

/-- Claim C8 as frozen, followed word for word: false for any text under 50
characters; otherwise garbage iff one of the four heuristics holds "on the
lowercased text" (no stripping anywhere). -/
def ocrGarbageClaimC8 (t : List Char) : Bool :=
  if decide (t.length < 50) then false
  else
    ogManyConsRuns (t.map Char.toLower) || ogLowAlphaRatio (t.map Char.toLower) ||
    ogHighSymbolRatio (t.map Char.toLower) || ogFewVowels (t.map Char.toLower)

/-- Claim C8 as amended: the length gate and every heuristic are measured on
the whitespace-stripped text (lowercased for the heuristics), as the code's
`text.strip()` / `text.lower().strip()` does. -/
def ocrGarbageSpec (t : List Char) : Bool :=
  if decide ((pyStrip t).length < 50) then false
  else
    ogManyConsRuns (lowerStrip t) || ogLowAlphaRatio (lowerStrip t) ||
    ogHighSymbolRatio (lowerStrip t) || ogFewVowels (lowerStrip t)

/-- Claim C9 as frozen, followed word for word: garbage exactly for stripped
length under 5; alphabetic ratio under 0.3 of non-space characters when the
non-space length exceeds 10; any run of 8+ consecutive consonants; fewer than
3 distinct characters in the space-stripped sentence when length exceeds 10;
zero vowels despite more than 5 alphabetic characters — all measured on the
sentence itself (consonants and vowels read case-insensitively, since "a
consonant character" includes its uppercase form; distinct characters are the
sentence's actual characters). -/
def sentenceGarbageClaimC9 (s : List Char) : Bool :=
  decide ((pyStrip s).length < 5) ||
  (decide (10 < nonSpaceLen s) && decide (alphaCount s * 10 < nonSpaceLen s * 3)) ||
  (runLengths isConsonantCI s).any (fun n => decide (8 ≤ n)) ||
  (decide (distinctNonSpace s < 3) && decide (10 < s.length)) ||
  (decide (5 < alphaCount s) && !(s.any isVowelCI))

/-- Claim C9 as amended: the same five conditions, but evaluated (as the code's
`sentence.lower().strip()` does) on the lowercased, whitespace-stripped
sentence — in particular the distinct-character count is case-insensitive. -/
def sentenceGarbageSpec (s : List Char) : Bool :=
  decide ((pyStrip s).length < 5) ||
  sgLowAlphaRatio (lowerStrip s) ||
  sgConsonantRun (lowerStrip s) ||
  sgFewDistinct (lowerStrip s) ||
  sgNoVowels (lowerStrip s)

/-- The concrete page text used to exhibit the dead emission branch. -/
def pageC1 : List Char := "This is a perfectly normal sentence.".toList

def envC1 : PdfEnv := ⟨true, [], Except.ok [pageC1]⟩

def pageC2 : List Char := "Another ordinary sentence for testing.".toList

def envC2 : PdfEnv := ⟨true, [], Except.ok [pageC2]⟩

def envC3 : PdfEnv := ⟨true, [], Except.error ("decode failure".toList)⟩

def envC5 : PdfEnv := ⟨true, [], Except.ok []⟩

/-- The refutation input for claim C8: two 12-consonant runs and 25 trailing
spaces — 50 characters in total, 25 after stripping. -/
def ocrCexText : List Char :=
  ("bcdfghjklmnp bcdfghjklmnp".toList) ++ List.replicate 25 ' '

/-- No two adjacent characters are both whitespace. -/
def noDoubleWs : List Char → Bool
  | [] => true
  | [_] => true
  | a :: b :: l => !(isPySpace a && isPySpace b) && noDoubleWs (b :: l)

/-!  ### Loop lemmas: the dead emission branch of `parse_pdf_bytes`  -/

theorem sentenceLoop_eq (fn : List Char) (pn : Nat) (g : Bool) (ss : List (List Char))
    (idx : Nat) (acc : List SentenceRecord) :
    sentenceLoop fn pn g ss idx acc =
      if ss.any (fun s => decide (10 ≤ (pyStrip s).length)) then
        Except.error unboundLocalErrorMsg
      else
        Except.ok (idx, acc) := by
  induction ss with
  | nil => simp [sentenceLoop]
  | cons s ss ih =>
    by_cases h : (pyStrip s).length < 10
    · have hs : (10 ≤ (pyStrip s).length) = False := by simp; omega
      simp [sentenceLoop, h, hs, ih]
    · have hs : 10 ≤ (pyStrip s).length := by omega
      simp [sentenceLoop, h, hs]

theorem pageLoop_eq (fn : List Char) (ps : List (List Char)) (pn idx : Nat)
    (acc : List SentenceRecord) :
    pageLoop fn ps pn idx acc =
      if ps.any (fun p => !(pyStrip p).isEmpty &&
          (extract_sentences_from_text p).any (fun s => decide (10 ≤ (pyStrip s).length))) then
        Except.error unboundLocalErrorMsg
      else
        Except.ok (idx, acc) := by
  induction ps generalizing pn idx acc with
  | nil => simp [pageLoop]
  | cons p ps ih =>
    by_cases hp : (pyStrip p).isEmpty
    · simp [pageLoop, hp, ih]
    · by_cases ha :
        (extract_sentences_from_text p).any (fun s => decide (10 ≤ (pyStrip s).length))
      · simp [pageLoop, hp, ha, sentenceLoop_eq]
      · simp [pageLoop, hp, ha, sentenceLoop_eq, ih]

theorem toList_append_ne_nil (s : String) (h : s.toList ≠ []) (n : List Char) :
    s.toList ++ n ≠ [] := by
  intro he
  cases hl : s.toList with
  | nil => exact h hl
  | cons a l => rw [hl] at he; simp at he

/-- Every call of `parse_pdf_bytes` returns exactly one synthetic fallback
record (with a non-empty text and a non-null error): each guard branch does so
directly, and the page loop either raises the `UnboundLocalError` of line 113
(handled into a fallback) or completes having appended nothing. -/
theorem parse_shape (env : PdfEnv) (b : List Nat) (n : List Char) :
    ∃ txt err, parse_pdf_bytes env b n = [mkFallback n txt err] ∧ txt ≠ [] := by
  unfold parse_pdf_bytes
  by_cases h1 : b.isEmpty
  · exact ⟨("Empty file: ".toList) ++ n, ("File is empty or could not be read".toList),
      by simp [h1], toList_append_ne_nil _ (by decide) _⟩
  · by_cases h2 : env.pdfAvailable
    · cases hex : env.extractResult with
      | error e =>
        exact ⟨("Failed to parse: ".toList) ++ n, ("Parsing error: ".toList) ++ e,
          by simp [h1, h2, hex], toList_append_ne_nil _ (by decide) _⟩
      | ok pages =>
        by_cases h3 : pages.isEmpty
        · exact ⟨("No text found in: ".toList) ++ n,
            ("No extractable text found in PDF".toList),
            by simp [h1, h2, hex, h3], toList_append_ne_nil _ (by decide) _⟩
        · by_cases h4 : pages.any (fun p => !(pyStrip p).isEmpty &&
            (extract_sentences_from_text p).any (fun s => decide (10 ≤ (pyStrip s).length)))
          · exact ⟨("Failed to parse: ".toList) ++ n,
              ("Parsing error: ".toList) ++ unboundLocalErrorMsg,
              by simp [h1, h2, hex, h3, pageLoop_eq, h4],
              toList_append_ne_nil _ (by decide) _⟩
          · exact ⟨("No valid sentences found in: ".toList) ++ n,
              ("No valid sentences could be extracted".toList),
              by simp [h1, h2, hex, h3, pageLoop_eq, h4],
              toList_append_ne_nil _ (by decide) _⟩
    · exact ⟨("PDF processing unavailable: ".toList) ++ env.pdfError,
        ("pdfplumber not available - ".toList) ++ env.pdfError,
        by simp [h1, h2], toList_append_ne_nil _ (by decide) _⟩

/-- C2: whenever the page texts yield at least one candidate sentence of
stripped length at least 10, the assignment
`is_sentence_garbage = is_sentence_garbage(sentence)` is reached and raises
`UnboundLocalError`, so the call returns exactly one fallback record whose
error starts with `'Parsing error:'`, and the record-appending branch is
unreachable. -/
theorem claim_C2 (env : PdfEnv) (b : List Nat) (n : List Char) (pages : List (List Char))
    (hb : b ≠ []) (hav : env.pdfAvailable = true)
    (hex : env.extractResult = Except.ok pages)
    (hlong : pages.any (fun p => (extract_sentences_from_text p).any
      (fun s => decide (10 ≤ (pyStrip s).length))) = true) :
    parse_pdf_bytes env b n =
      [mkFallback n (("Failed to parse: ".toList) ++ n)
        (("Parsing error: ".toList) ++ unboundLocalErrorMsg)] := by
  have hany : pages.any (fun p => !(pyStrip p).isEmpty &&
      (extract_sentences_from_text p).any (fun s => decide (10 ≤ (pyStrip s).length))) = true := by
    rw [List.any_eq_true] at hlong ⊢
    obtain ⟨p, hp, hf⟩ := hlong
    refine ⟨p, hp, ?_⟩
    have hne : ¬(pyStrip p).isEmpty := by
      intro hq
      have : extract_sentences_from_text p = [] := by
        unfold extract_sentences_from_text
        simp [hq]
      rw [this] at hf
      simp at hf
    simp only [Bool.and_eq_true]
    exact ⟨by simpa using hne, hf⟩
  have hpages : ¬pages.isEmpty := by
    rw [List.any_eq_true] at hany
    obtain ⟨p, hp, -⟩ := hany
    intro h
    rw [List.isEmpty_iff] at h
    subst h
    simp at hp
  have hbe : ¬b.isEmpty := by simpa [List.isEmpty_iff] using hb
  unfold parse_pdf_bytes
  simp [hbe, hav, hex, hpages, pageLoop_eq, hany]

theorem claim_C2_witness :
    (([0] : List Nat) ≠ []) ∧ envC2.pdfAvailable = true ∧
    envC2.extractResult = Except.ok [pageC2] ∧
    ([pageC2].any (fun p => (extract_sentences_from_text p).any
      (fun s => decide (10 ≤ (pyStrip s).length))) = true) ∧
    parse_pdf_bytes envC2 [0] ("doc.pdf".toList) =
      [mkFallback ("doc.pdf".toList) (("Failed to parse: ".toList) ++ ("doc.pdf".toList))
        (("Parsing error: ".toList) ++ unboundLocalErrorMsg)] :=
  ⟨by decide, rfl, rfl, by decide,
    claim_C2 envC2 [0] ("doc.pdf".toList) [pageC2] (by decide) rfl rfl (by decide)⟩

/-- C3: `parse_pdf_bytes` never raises and always returns a non-empty list;
every branch (empty bytes, missing backend, extraction failure, no pages, no
surviving sentences, any raised exception) produces exactly one fallback
record with `activity_index` 0, `page_number` 1 and a non-null error, and a
raised extraction exception's message is carried behind `'Parsing error: '`. -/
theorem claim_C3 :
    (∀ (env : PdfEnv) (b : List Nat) (n : List Char), ∃ r,
      parse_pdf_bytes env b n = [r] ∧ r.activity_index = 0 ∧ r.page_number = 1 ∧
      r.error ≠ none) ∧
    (∀ (env : PdfEnv) (b : List Nat) (n : List Char) (e : List Char), b ≠ [] →
      env.pdfAvailable = true → env.extractResult = Except.error e →
      parse_pdf_bytes env b n =
        [mkFallback n (("Failed to parse: ".toList) ++ n)
          (("Parsing error: ".toList) ++ e)]) := by
  constructor
  · intro env b n
    obtain ⟨txt, err, heq, -⟩ := parse_shape env b n
    exact ⟨mkFallback n txt err, heq, rfl, rfl, by simp [mkFallback]⟩
  · intro env b n e hb hav hex
    have hbe : ¬b.isEmpty := by simpa [List.isEmpty_iff] using hb
    unfold parse_pdf_bytes
    simp [hbe, hav, hex]

theorem claim_C3_witness :
    (∃ r, parse_pdf_bytes envC3 [] ("x.pdf".toList) = [r] ∧ r.activity_index = 0 ∧
      r.page_number = 1 ∧ r.error ≠ none) ∧
    (([0] : List Nat) ≠ []) ∧ envC3.pdfAvailable = true ∧
    envC3.extractResult = Except.error ("decode failure".toList) ∧
    parse_pdf_bytes envC3 [0] ("x.pdf".toList) =
      [mkFallback ("x.pdf".toList) (("Failed to parse: ".toList) ++ ("x.pdf".toList))
        (("Parsing error: ".toList) ++ ("decode failure".toList))] :=
  ⟨claim_C3.1 envC3 [] ("x.pdf".toList), by decide, rfl, rfl,
    claim_C3.2 envC3 [0] ("x.pdf".toList) ("decode failure".toList) (by decide) rfl rfl⟩

/-- C4: the `activity_index` values of the returned records are exactly
`0, …, N-1` in emission order, `N` being the number of returned records
(here always the single synthetic fallback record, which carries index 0). -/
theorem claim_C4 (env : PdfEnv) (b : List Nat) (n : List Char) :
    (parse_pdf_bytes env b n).map (fun r => r.activity_index) =
      List.range (parse_pdf_bytes env b n).length := by
  obtain ⟨txt, err, heq, -⟩ := parse_shape env b n
  rw [heq]
  simp [mkFallback, List.range_succ]

/-!  ### Shape of the splitter's output  -/

theorem fixTerminal_ne_nil_getLast (p : List Char) (hp : p ≠ []) :
    fixTerminal p ≠ [] ∧ isSentEnd ((fixTerminal p).getLastD ' ') = true := by
  unfold fixTerminal
  cases hl : p.getLast? with
  | none => exact absurd (List.getLast?_eq_none_iff.mp hl) hp
  | some c =>
    by_cases hc : isSentEnd c
    · refine ⟨by simpa [hl, hc] using hp, ?_⟩
      simp [hl, hc, List.getLastD_eq_getLast?]
    · have hcf : isSentEnd c = false := by simpa using hc
      constructor
      · simp [hcf]
      · simp only [hcf, Bool.false_eq_true, if_false]
        rw [List.getLastD_eq_getLast?, List.getLast?_concat]
        decide

theorem processParts_mem (ps : List (List Char)) (s : List Char)
    (h : s ∈ processParts ps) : s ≠ [] ∧ isSentEnd (s.getLastD ' ') = true := by
  induction ps with
  | nil => simp [processParts] at h
  | cons p ps ih =>
    simp only [processParts] at h
    by_cases h5 : 5 ≤ (pyStrip (replaceSub ['\n'] [' '] 0 p)).length
    · rw [if_pos h5] at h
      rcases List.mem_cons.mp h with rfl | hmem
      · exact fixTerminal_ne_nil_getLast _ (by intro he; rw [he] at h5; simp at h5)
      · exact ih hmem
    · rw [if_neg h5] at h
      exact ih h

theorem secondPass_mem (ss : List (List Char)) (s : List Char)
    (h : s ∈ secondPass ss) : s ≠ [] ∧ isSentEnd (s.getLastD ' ') = true := by
  induction ss with
  | nil => simp [secondPass] at h
  | cons x ss ih =>
    simp only [secondPass, List.mem_append] at h
    rcases h with h | h
    · exact processParts_mem _ _ h
    · exact ih h

theorem extract_mem (t s : List Char) (h : s ∈ extract_sentences_from_text t) :
    s ≠ [] ∧ isSentEnd (s.getLastD ' ') = true := by
  unfold extract_sentences_from_text at h
  by_cases hc : (t.isEmpty || (pyStrip t).isEmpty) = true
  · rw [if_pos hc] at h
    simp at h
  · rw [if_neg hc] at h
    exact secondPass_mem _ _ h

/-!  ### The claims about `parse_pdf_bytes` behaviour and the splitter  -/

/-- C1 (code bug): the page `pageC1` is not flagged by `is_ocr_garbage`, it
yields exactly one candidate sentence, that sentence is not sentence-garbage
and is 10 characters or longer — so the claimed behaviour would emit it as a
record — yet `parse_pdf_bytes` returns the single `'Parsing error:'` fallback
produced by the `UnboundLocalError` of line 113: the flag-and-emit and
discard-and-continue paths of lines 115-128 are unreachable. -/
theorem claim_C1_code_bug :
    is_ocr_garbage pageC1 = false ∧
    extract_sentences_from_text pageC1 = [pageC1] ∧
    is_sentence_garbage pageC1 = false ∧
    10 ≤ (pyStrip pageC1).length ∧
    parse_pdf_bytes envC1 [0] ("doc.pdf".toList) =
      [mkFallback ("doc.pdf".toList) ("Failed to parse: doc.pdf".toList)
        (("Parsing error: ".toList) ++ unboundLocalErrorMsg)] := by
  decide

/-- C5 (amended): every record returned by `parse_pdf_bytes` has a non-empty
`activity_text`, and every sentence string produced by
`extract_sentences_from_text` is non-empty and ends with `.`, `!` or `?`;
the fallback records' texts, however, need not end in sentence punctuation
(see the counterexample). -/
theorem claim_C5 :
    (∀ (env : PdfEnv) (b : List Nat) (n : List Char) (r : SentenceRecord),
      r ∈ parse_pdf_bytes env b n → r.activity_text ≠ []) ∧
    (∀ t s : List Char, s ∈ extract_sentences_from_text t →
      s ≠ [] ∧ isSentEnd (s.getLastD ' ') = true) := by
  constructor
  · intro env b n r hr
    obtain ⟨txt, err, heq, hne⟩ := parse_shape env b n
    rw [heq] at hr
    have hr' : r = mkFallback n txt err := List.mem_singleton.mp hr
    rw [hr']
    simpa [mkFallback] using hne
  · exact fun t s h => extract_mem t s h

/-- C5 counterexample: on empty input bytes the returned fallback record's
`activity_text` is `"Empty file: doc.pdf"`, whose last character `'f'` is not
sentence punctuation — refuting the claim that every record's text ends in
`.`, `!` or `?`. -/
theorem claim_C5_counterexample :
    parse_pdf_bytes envC5 [] ("doc.pdf".toList) =
      [mkFallback ("doc.pdf".toList) ("Empty file: doc.pdf".toList)
        ("File is empty or could not be read".toList)] ∧
    ("Empty file: doc.pdf".toList).getLastD ' ' = 'f' ∧
    isSentEnd 'f' = false := by
  decide

theorem claim_C5_witness :
    (mkFallback ("x.pdf".toList) (("Empty file: ".toList) ++ ("x.pdf".toList))
        ("File is empty or could not be read".toList) ∈
      parse_pdf_bytes envC5 [] ("x.pdf".toList)) ∧
    (mkFallback ("x.pdf".toList) (("Empty file: ".toList) ++ ("x.pdf".toList))
        ("File is empty or could not be read".toList)).activity_text ≠ [] ∧
    (("Nice day today.".toList) ∈ extract_sentences_from_text ("Nice day today.".toList)) ∧
    (("Nice day today.".toList) ≠ [] ∧
      isSentEnd (("Nice day today.".toList).getLastD ' ') = true) :=
  ⟨by decide, claim_C5.1 envC5 [] ("x.pdf".toList) _ (by decide), by decide,
    claim_C5.2 ("Nice day today.".toList) ("Nice day today.".toList) (by decide)⟩

/-- C6: splitting `"Dr. Smith met Prof. Jones. They agreed."` yields exactly
the two sentences `"Dr. Smith met Prof. Jones."` and `"They agreed."`; the
abbreviation periods are placeholder-protected before the split and restored
afterwards, so no split occurs after `"Dr."` or `"Prof."`. -/
theorem claim_C6 :
    extract_sentences_from_text ("Dr. Smith met Prof. Jones. They agreed.".toList) =
      [("Dr. Smith met Prof. Jones.".toList), ("They agreed.".toList)] := by
  decide

/-- C7: splitting `"The value is 3.14 and that's final."` yields exactly one
sentence, and that sentence contains the substring `"3.14"` intact (the
decimal period is placeholder-protected, so no split occurs at it). -/
theorem claim_C7 :
    extract_sentences_from_text ("The value is 3.14 and that's final.".toList) =
      [("The value is 3.14 and that's final.".toList)] ∧
    containsSub ("3.14".toList) ("The value is 3.14 and that's final.".toList) = true := by
  decide

/-!  ### The garbage-detector refinement claims  -/

/-- C8 (amended): `is_ocr_garbage` returns false exactly when the
whitespace-stripped text is under 50 characters, and otherwise returns true iff
one of the four heuristics holds on the lowercased stripped text. -/
theorem claim_C8 (t : List Char) : is_ocr_garbage t = ocrGarbageSpec t := by
  unfold is_ocr_garbage ocrGarbageSpec
  by_cases h0 : t.isEmpty = true
  · have ht : t = [] := by simpa using h0
    subst ht
    rfl
  · have hf : t.isEmpty = false := by simpa using h0
    by_cases h50 : (pyStrip t).length < 50
    · simp [hf, h50]
    · cases hA : ogManyConsRuns (lowerStrip t) <;>
      cases hB : ogLowAlphaRatio (lowerStrip t) <;>
      cases hC : ogHighSymbolRatio (lowerStrip t) <;>
      cases hD : ogFewVowels (lowerStrip t) <;>
      simp [hf, h50, hA, hB, hC, hD]

/-- C8 counterexample: `ocrCexText` is 50 characters long (so not "under 50
characters") and its lowercased text has two runs of 12 consonants, so the
claim's formula says garbage; but the code strips first, sees 25 characters,
and returns false. -/
theorem claim_C8_counterexample :
    is_ocr_garbage ocrCexText = false ∧ ocrGarbageClaimC8 ocrCexText = true ∧
    ¬(ocrCexText.length < 50) := by
  decide

/-- C9 (amended): `is_sentence_garbage` returns true exactly for the claim's
five conditions evaluated on the lowercased, whitespace-stripped sentence; in
particular a string of 20 repeated consonants is garbage while a normal
English sentence of similar length is not. -/
theorem claim_C9 :
    (∀ s : List Char, is_sentence_garbage s = sentenceGarbageSpec s) ∧
    is_sentence_garbage (List.replicate 20 'b') = true ∧
    is_sentence_garbage ("This is a normal English sentence.".toList) = false := by
  refine ⟨fun s => ?_, by decide, by decide⟩
  unfold is_sentence_garbage sentenceGarbageSpec
  by_cases h0 : s.isEmpty = true
  · have hs : s = [] := by simpa using h0
    subst hs
    rfl
  · have hf : s.isEmpty = false := by simpa using h0
    by_cases h5 : (pyStrip s).length < 5
    · simp [hf, h5]
    · cases hA : sgLowAlphaRatio (lowerStrip s) <;>
      cases hB : sgConsonantRun (lowerStrip s) <;>
      cases hC : sgFewDistinct (lowerStrip s) <;>
      cases hD : sgNoVowels (lowerStrip s) <;>
      simp [hf, h5, hA, hB, hC, hD]

/-- C9 counterexample: `"AaBbAaBbAaBb"` satisfies none of the claim's
conditions as stated on the raw sentence (it has four distinct characters,
vowels, full alphabetic ratio and no consonant runs), yet the code lowercases
first, sees only two distinct characters, and classifies it as garbage. -/
theorem claim_C9_counterexample :
    is_sentence_garbage ("AaBbAaBbAaBb".toList) = true ∧
    sentenceGarbageClaimC9 ("AaBbAaBbAaBb".toList) = false := by
  decide

/-!  ### `clean_sentence_text` lemmas (claim C10)  -/

theorem dropWhile_eq_self_of_all {α : Type} (p : α → Bool) (l : List α)
    (h : ∀ c ∈ l, p c = false) : l.dropWhile p = l := by
  cases l with
  | nil => rfl
  | cons a l => simp [List.dropWhile_cons, h a (by simp)]

theorem pyStrip_eq_self (l : List Char) (h : ∀ c ∈ l, isPySpace c = false) :
    pyStrip l = l := by
  unfold pyStrip
  rw [dropWhile_eq_self_of_all _ _ h]
  rw [dropWhile_eq_self_of_all _ _ (fun c hc => h c (List.mem_reverse.mp hc))]
  exact List.reverse_reverse l

theorem mem_pyStrip (l : List Char) (c : Char) (h : c ∈ pyStrip l) : c ∈ l := by
  unfold pyStrip at h
  have h1 := List.mem_reverse.mp h
  have h2 := (List.dropWhile_sublist _).subset h1
  have h3 := List.mem_reverse.mp h2
  exact (List.dropWhile_sublist _).subset h3

theorem collapseWs_eq_self (l : List Char) (h : ∀ c ∈ l, isPySpace c = false) :
    collapseWs l = l := by
  induction l with
  | nil => rfl
  | cons a l ih =>
    cases l with
    | nil => simp [collapseWs, h a (by simp)]
    | cons b rest =>
      have ha := h a (by simp)
      have hb := h b (by simp)
      have step : collapseWs (a :: b :: rest) = a :: collapseWs (b :: rest) := by
        simp [collapseWs, ha, hb]
      rw [step, ih (fun c hc => h c (List.mem_cons_of_mem a hc))]

theorem collapseWs_head (a : Char) (l : List Char) :
    ∃ tl, collapseWs (a :: l) = (if isPySpace a then ' ' else a) :: tl := by
  induction l generalizing a with
  | nil => exact ⟨[], by by_cases h : isPySpace a <;> simp [collapseWs, h]⟩
  | cons b rest ih =>
    by_cases hab : (isPySpace a && isPySpace b) = true
    · obtain ⟨tl, htl⟩ := ih b
      have ha : isPySpace a = true := (Bool.and_eq_true ..).mp hab |>.1
      have hb : isPySpace b = true := (Bool.and_eq_true ..).mp hab |>.2
      refine ⟨tl, ?_⟩
      have step : collapseWs (a :: b :: rest) = collapseWs (b :: rest) := by
        simp [collapseWs, hab]
      rw [step, htl]
      simp [ha, hb]
    · exact ⟨collapseWs (b :: rest), by simp [collapseWs, hab]⟩

theorem collapseWs_noDouble (l : List Char) : noDoubleWs (collapseWs l) = true := by
  induction l with
  | nil => rfl
  | cons a l ih =>
    cases l with
    | nil => by_cases h : isPySpace a <;> simp [collapseWs, noDoubleWs, h]
    | cons b rest =>
      by_cases hab : (isPySpace a && isPySpace b) = true
      · simpa [collapseWs, hab] using ih
      · obtain ⟨tl, htl⟩ := collapseWs_head b rest
        have step : collapseWs (a :: b :: rest) =
            (if isPySpace a then ' ' else a) :: collapseWs (b :: rest) := by
          simp [collapseWs, hab]
        rw [step, htl]
        by_cases ha : isPySpace a
        · have hbf : isPySpace b = false := by
            by_contra hb
            exact hab (by simp [ha, (by simpa using hb : isPySpace b = true)])
          have h2nd : noDoubleWs (b :: tl) = true := by
            have hih := ih
            rwa [htl, if_neg (by simp [hbf])] at hih
          rw [if_pos ha, if_neg (by simp [hbf])]
          simp only [noDoubleWs, Bool.and_eq_true]
          exact ⟨by simp [hbf], h2nd⟩
        · have haf : isPySpace a = false := by simpa using ha
          rw [if_neg ha]
          by_cases hb : isPySpace b
          · have h2nd : noDoubleWs (' ' :: tl) = true := by
              have hih := ih
              rwa [htl, if_pos hb] at hih
            rw [if_pos hb]
            simp only [noDoubleWs, Bool.and_eq_true]
            exact ⟨by simp [haf], h2nd⟩
          · have hbf : isPySpace b = false := by simpa using hb
            have h2nd : noDoubleWs (b :: tl) = true := by
              have hih := ih
              rwa [htl, if_neg hb] at hih
            rw [if_neg hb]
            simp only [noDoubleWs, Bool.and_eq_true]
            exact ⟨by simp [haf], h2nd⟩

theorem collapseWs_mem (l : List Char) (c : Char) (h : c ∈ collapseWs l) :
    c = ' ' ∨ (isPySpace c = false ∧ c ∈ l) := by
  induction l with
  | nil => simp [collapseWs] at h
  | cons a l ih =>
    cases l with
    | nil =>
      by_cases ha : isPySpace a
      · left
        simpa [collapseWs, ha] using h
      · right
        have hc : c = a := by simpa [collapseWs, ha] using h
        subst hc
        exact ⟨by simpa using ha, by simp⟩
    | cons b rest =>
      by_cases hab : (isPySpace a && isPySpace b) = true
      · have h' : c ∈ collapseWs (b :: rest) := by
          have step : collapseWs (a :: b :: rest) = collapseWs (b :: rest) := by
            simp [collapseWs, hab]
          rwa [step] at h
        rcases ih h' with h'' | ⟨hn, hm⟩
        · exact Or.inl h''
        · exact Or.inr ⟨hn, List.mem_cons_of_mem a hm⟩
      · have step : collapseWs (a :: b :: rest) =
            (if isPySpace a then ' ' else a) :: collapseWs (b :: rest) := by
          simp [collapseWs, hab]
        rw [step] at h
        rcases List.mem_cons.mp h with h' | h'
        · by_cases ha : isPySpace a
          · left
            simpa [ha] using h'
          · right
            rw [if_neg ha] at h'
            subst h'
            exact ⟨by simpa using ha, by simp⟩
        · rcases ih h' with h'' | ⟨hn, hm⟩
          · exact Or.inl h''
          · exact Or.inr ⟨hn, List.mem_cons_of_mem a hm⟩

theorem noDoubleWs_take (l : List Char) :
    ∀ n, noDoubleWs l = true → noDoubleWs (l.take n) = true := by
  induction l with
  | nil => intro n _; simp [noDoubleWs]
  | cons a l ih =>
    intro n h
    cases n with
    | zero => rfl
    | succ k =>
      cases l with
      | nil => simp [noDoubleWs]
      | cons b rest =>
        cases k with
        | zero => rfl
        | succ j =>
          have hsplit : (!(isPySpace a && isPySpace b)) = true ∧
              noDoubleWs (b :: rest) = true := by
            simpa [noDoubleWs, Bool.and_eq_true] using h
          have ihb := ih (j + 1) hsplit.2
          show noDoubleWs (a :: b :: rest.take j) = true
          simp only [noDoubleWs, Bool.and_eq_true]
          exact ⟨hsplit.1, by simpa using ihb⟩

theorem noDoubleWs_append (xs ys : List Char) (hx : noDoubleWs xs = true)
    (hy : noDoubleWs ys = true)
    (hhd : ∀ c, ys.head? = some c → isPySpace c = false) :
    noDoubleWs (xs ++ ys) = true := by
  induction xs with
  | nil => simpa using hy
  | cons a xs ih =>
    cases xs with
    | nil =>
      cases ys with
      | nil => simpa using hx
      | cons c ys' =>
        have hc : isPySpace c = false := hhd c rfl
        show noDoubleWs (a :: c :: ys') = true
        simp only [noDoubleWs, Bool.and_eq_true]
        exact ⟨by simp [hc], hy⟩
    | cons b xs' =>
      have hsplit : (!(isPySpace a && isPySpace b)) = true ∧
          noDoubleWs (b :: xs') = true := by
        simpa [noDoubleWs, Bool.and_eq_true] using hx
      have := ih hsplit.2
      show noDoubleWs (a :: b :: (xs' ++ ys)) = true
      simp only [noDoubleWs, Bool.and_eq_true]
      exact ⟨hsplit.1, by simpa using this⟩

/-- The characters of `clean_sentence_text s` come either from the collapsed
stripped control-free text or from the truncation suffix. -/
theorem clean_sentence_text_mem (s : List Char) (c : Char)
    (h : c ∈ clean_sentence_text s) :
    c ∈ collapseWs (pyStrip (s.filter (fun c => !(removedCtrl c)))) ∨ c ∈ truncSuffix := by
  unfold clean_sentence_text at h
  by_cases hlen : 32000 <
      (collapseWs (pyStrip (s.filter (fun c => !(removedCtrl c))))).length
  · rw [if_pos hlen] at h
    rcases List.mem_append.mp h with h' | h'
    · exact Or.inl ((List.take_sublist _ _).subset h')
    · exact Or.inr h'
  · rw [if_neg hlen] at h
    exact Or.inl h

/-- C10: `clean_sentence_text` removes the control-character class, leaves no
two adjacent whitespace characters (every whitespace in the output is a single
space), and truncates an over-long result to its first 32000 characters plus
the literal `"... [TRUNCATED]"` suffix — in particular a 40000-character
sentence without whitespace or control characters yields exactly
32000 + 15 characters ending in that suffix. -/
theorem claim_C10 :
    (∀ (s : List Char) (c : Char), c ∈ clean_sentence_text s → removedCtrl c = false) ∧
    (∀ s : List Char, noDoubleWs (clean_sentence_text s) = true) ∧
    (∀ (s : List Char) (c : Char), c ∈ clean_sentence_text s → isPySpace c = true → c = ' ') ∧
    (∀ s : List Char, s.length = 40000 →
      (∀ c ∈ s, isPySpace c = false ∧ removedCtrl c = false) →
      clean_sentence_text s = s.take 32000 ++ truncSuffix ∧
      (clean_sentence_text s).length = 32015) := by
  have hsufCtl : ∀ c ∈ truncSuffix, removedCtrl c = false := by decide
  have hsufWs : ∀ c ∈ truncSuffix, isPySpace c = true → c = ' ' := by decide
  refine ⟨?_, ?_, ?_, ?_⟩
  · intro s c h
    rcases clean_sentence_text_mem s c h with h' | h'
    · rcases collapseWs_mem _ _ h' with rfl | ⟨-, hm⟩
      · decide
      · have := List.of_mem_filter (mem_pyStrip _ _ hm)
        simpa using this
    · exact hsufCtl c h'
  · intro s
    unfold clean_sentence_text
    by_cases hlen : 32000 <
        (collapseWs (pyStrip (s.filter (fun c => !(removedCtrl c))))).length
    · rw [if_pos hlen]
      refine noDoubleWs_append _ _ ?_ (by decide) ?_
      · exact noDoubleWs_take _ _ (collapseWs_noDouble _)
      · intro c hc
        have : c = '.' := by
          have : truncSuffix.head? = some '.' := by decide
          rw [this] at hc
          exact (Option.some.inj hc).symm
        subst this
        decide
    · rw [if_neg hlen]
      exact collapseWs_noDouble _
  · intro s c h hws
    rcases clean_sentence_text_mem s c h with h' | h'
    · rcases collapseWs_mem _ _ h' with rfl | ⟨hn, -⟩
      · rfl
      · rw [hws] at hn
        cases hn
    · exact hsufWs c h' hws
  · intro s hlen hprop
    have hfil : s.filter (fun c => !(removedCtrl c)) = s :=
      List.filter_eq_self.mpr (fun c hc => by simp [(hprop c hc).2])
    have hstrip : pyStrip s = s := pyStrip_eq_self s (fun c hc => (hprop c hc).1)
    have hcol : collapseWs s = s := collapseWs_eq_self s (fun c hc => (hprop c hc).1)
    have hbig : 32000 < s.length := by omega
    constructor
    · unfold clean_sentence_text
      simp only [hfil, hstrip, hcol]
      rw [if_pos hbig]
    · unfold clean_sentence_text
      simp only [hfil, hstrip, hcol]
      rw [if_pos hbig]
      have hts : truncSuffix.length = 15 := by decide
      rw [List.length_append, List.length_take, hlen, hts]
      omega

/-- Witness for the hypothesis-bearing part of C10, at 40000 copies of `'a'`. -/
theorem claim_C10_witness :
    (List.replicate 40000 'a').length = 40000 ∧
    (∀ c ∈ List.replicate 40000 'a', isPySpace c = false ∧ removedCtrl c = false) ∧
    clean_sentence_text (List.replicate 40000 'a') =
      (List.replicate 40000 'a').take 32000 ++ truncSuffix ∧
    (clean_sentence_text (List.replicate 40000 'a')).length = 32015 := by
  have h1 : (List.replicate 40000 'a').length = 40000 := List.length_replicate 40000 'a'
  have h2 : ∀ c ∈ List.replicate 40000 'a', isPySpace c = false ∧ removedCtrl c = false := by
    intro c hc
    have := List.eq_of_mem_replicate hc
    subst this
    exact ⟨by decide, by decide⟩
  exact ⟨h1, h2, (claim_C10.2.2.2 _ h1 h2).1, (claim_C10.2.2.2 _ h1 h2).2⟩

end VNRActivity
